import Mathlib

/-!
# GCO Golf League dashboard — verification of the data-loading and aggregation core

Shallow embedding of `streamlit_app.py` (loader fallback chain, sample-data
generator, player statistics, tournament leaderboard, player comparison).
Machine floats of the source are modelled by exact rationals `ℚ`; the one
irrational quantity (the sample standard deviation used as the consistency
metric) lives in `ℝ`.  Pandas `NaN` results (standard deviation of fewer than
two observations) are modelled by `Option`.
-/

namespace GCO

/-- One score record: a row of the tabular dataset.  Numeric columns are kept
as exact rationals (the source stores them as int64/float64 pandas columns). -/
structure Record where
  player : String
  tournament : String
  game : String
  netScore : ℚ
  birdies : ℚ
  pars : ℚ
  bogeys : ℚ
  doubleBogeys : ℚ
deriving DecidableEq, Repr

/-- A pandas `DataFrame` as the loader sees it: the list of column names of
the frame together with its (well-typed) rows.  Column presence — what the
loader's schema validation inspects — is carried by `cols`. -/
structure Frame where
  cols : List String
  rows : List Record
deriving DecidableEq, Repr

/-- The required columns the loader validates (`streamlit_app.py` lines 58, 91). -/
def required_columns : List String := ["Player", "Tournament", "Game", "Net_Score"]

/-- The full column set of the GCO data (sample-data frames carry all eight). -/
def gcoCols : List String :=
  ["Player", "Tournament", "Game", "Net_Score", "Birdies", "Pars", "Bogeys", "Double_Bogeys"]

/-- The loader's acceptance test for a candidate dataframe:
`all(col in df.columns for col in required_columns) and not df.empty`. -/
def validate (df : Frame) : Bool :=
  required_columns.all (fun c => df.cols.contains c) && !df.rows.isEmpty

/-- Outcome of the local cache-file check (`gco_data.csv`): the file may be
absent, unreadable (any parse/IO exception), or parse to a dataframe. -/
inductive LocalFile where
  | absent
  | unreadable
  | parsed (df : Frame)

/-- Outcome of one remote URL attempt: a network/HTTP/CSV-parse failure, an
empty or HTML (`<!DOCTYPE`) response body, or a parsed dataframe. -/
inductive RemoteResp where
  | failure
  | htmlPage
  | parsed (df : Frame)

/-- The file-system/network environment a call of `load_gco_data` runs in:
the local-file outcome and the outcome of each candidate URL in order
(the source tries three URL formats). -/
structure Env where
  localFile : LocalFile
  remote : List RemoteResp

/-- The `for url in urls_to_try` loop: first response that parses to a
dataframe passing `validate` wins; every other outcome advances to the next
URL (`continue`). -/
def tryUrls : List RemoteResp → Option Frame
  | [] => none
  | RemoteResp.parsed df :: rest => if validate df then some df else tryUrls rest
  | _ :: rest => tryUrls rest

/-- `np.random.randint(lo, hi)`: the `k`-th draw of the random stream `rand`,
mapped into `[lo, hi)`.  The stream is abstract; reducing modulo the span is
exactly the contract numpy guarantees. -/
def randint (rand : ℕ → ℕ) (k : ℕ) (lo hi : ℤ) : ℤ :=
  lo + ((rand k % (hi - lo).toNat : ℕ) : ℤ)

/-- The fixed player list of `create_sample_data`. -/
def samplePlayers : List String :=
  ["刘北南", "Jacky", "赵鲲", "杨子初", "Neo", "徐峥", "杨明",
   "曹振波", "李扬", "王文龙", "曾诚", "Justin"]

/-- The fixed tournament dictionary of `create_sample_data`:
name, period, and list of games, in insertion order. -/
def sampleTournaments : List (String × String × List String) :=
  [("提提卡卡杯", "01/04 - 31/05", ["Game 1", "Game 2", "Game 3", "Game 4"]),
   ("暖男杯", "01/06 - 31/07", ["Game 5", "Game 6", "Game 7", "Game 8"]),
   ("凯尔特人杯", "01/08 - 15/09", ["Game 9", "Game 10", "Game 11", "Game 12"])]

/-- The (player, tournament, game) combinations enumerated by the three nested
loops of `create_sample_data`, in loop order. -/
def sampleCombos : List (String × String × String) :=
  samplePlayers.flatMap fun p =>
    sampleTournaments.flatMap fun t =>
      t.2.2.map fun g => (p, t.1, g)

/-- The record generated for the `i`-th loop iteration: five sequential
`np.random.randint` draws fill the score/count fields. -/
def sampleRecord (rand : ℕ → ℕ) (i : ℕ) (p t g : String) : Record :=
  { player := p
    tournament := t
    game := g
    netScore := (randint rand (5 * i) (-15) 20 : ℤ)
    birdies := (randint rand (5 * i + 1) 0 5 : ℤ)
    pars := (randint rand (5 * i + 2) 5 15 : ℤ)
    bogeys := (randint rand (5 * i + 3) 0 8 : ℤ)
    doubleBogeys := (randint rand (5 * i + 4) 0 4 : ℤ) }

/-- `create_sample_data`: one record per (player, tournament, game)
combination, columns fixed to the full GCO schema. -/
def create_sample_data (rand : ℕ → ℕ) : Frame :=
  { cols := gcoCols
    rows := sampleCombos.enum.map fun ic => sampleRecord rand ic.1 ic.2.1 ic.2.2.1 ic.2.2.2 }

/-- `load_gco_data` past the local-file check: try the remote URLs, fall back
to sample data. -/
def loadRemoteOrSample (env : Env) (rand : ℕ → ℕ) : Frame :=
  match tryUrls env.remote with
  | some df => df
  | none => create_sample_data rand

/-- `load_gco_data`: local cache if it parses and validates, else the remote
URL chain, else synthetic sample data.  Every IO failure is caught and means
"advance to the next source". -/
def load_gco_data (env : Env) (rand : ℕ → ℕ) : Frame :=
  match env.localFile with
  | LocalFile.parsed df => if validate df then df else loadRemoteOrSample env rand
  | _ => loadRemoteOrSample env rand

/-! ## Aggregator -/

/-- Arithmetic mean of a list of rationals (`Series.mean`). -/
def mean (l : List ℚ) : ℚ := l.sum / l.length

/-- Minimum of a list (`Series.min`); only ever applied to non-empty lists
(the source checks `player_data.empty` first). -/
def listMin : List ℚ → ℚ
  | [] => 0
  | x :: xs => xs.foldl min x

/-- Maximum of a list (`Series.max`); only ever applied to non-empty lists. -/
def listMax : List ℚ → ℚ
  | [] => 0
  | x :: xs => xs.foldl max x

/-- Sample variance with divisor `n - 1` (pandas default `ddof=1`). -/
def sampleVar (l : List ℚ) : ℚ :=
  ((l.map fun x => (x - mean l) ^ 2).sum) / ((l.length : ℚ) - 1)

/-- `Series.std()` (ddof = 1): the square root of the sample variance; `none`
models the `NaN` pandas returns on fewer than two observations. -/
noncomputable def sampleStd (l : List ℚ) : Option ℝ :=
  if 2 ≤ l.length then some (Real.sqrt (sampleVar l)) else none

/-- The statistics dictionary built by `calculate_player_stats`. -/
structure Stats where
  total_games : ℕ
  avg_net_score : ℚ
  best_score : ℚ
  worst_score : ℚ
  total_birdies : ℚ
  total_pars : ℚ
  total_bogeys : ℚ
  total_double_bogeys : ℚ
  birdie_rate : ℚ
  consistency : Option ℝ

/-- `calculate_player_stats`: filter to the player's rows, `None` when no row
matches, otherwise the aggregate dictionary. -/
noncomputable def calculate_player_stats (df : Frame) (player_name : String) : Option Stats :=
  let player_data := df.rows.filter fun r => r.player == player_name
  if player_data.isEmpty then none
  else some
    { total_games := player_data.length
      avg_net_score := mean (player_data.map (·.netScore))
      best_score := listMin (player_data.map (·.netScore))
      worst_score := listMax (player_data.map (·.netScore))
      total_birdies := (player_data.map (·.birdies)).sum
      total_pars := (player_data.map (·.pars)).sum
      total_bogeys := (player_data.map (·.bogeys)).sum
      total_double_bogeys := (player_data.map (·.doubleBogeys)).sum
      birdie_rate := mean (player_data.map (·.birdies))
      consistency := sampleStd (player_data.map (·.netScore)) }

/-- Round-half-to-even on integers' midpoints: the rounding `numpy` (and hence
`DataFrame.round`) applies. -/
def rnd (q : ℚ) : ℤ :=
  if q < ⌊q⌋ + 1 / 2 then ⌊q⌋
  else if (⌊q⌋ : ℚ) + 1 / 2 < q then ⌊q⌋ + 1
  else if 2 ∣ ⌊q⌋ then ⌊q⌋ else ⌊q⌋ + 1

/-- `DataFrame.round(2)` on one value: round to two decimal places. -/
def round2 (q : ℚ) : ℚ := (rnd (q * 100) : ℚ) / 100

/-- One aggregated leaderboard row before the `Rank` column is assigned
(the seven flattened aggregate columns, each already passed through
`.round(2)`). -/
structure AggRow where
  player : String
  total_score : ℚ
  avg_score : ℚ
  games_played : ℚ
  total_birdies : ℚ
  total_pars : ℚ
  total_bogeys : ℚ
  total_double_bogeys : ℚ
deriving DecidableEq, Repr

/-- A leaderboard row after `leaderboard['Rank'] = range(1, len+1)`. -/
structure LBRow extends AggRow where
  rank : ℕ
deriving DecidableEq, Repr

/-- The leaderboard frame: its column names and its rows. -/
structure Leaderboard where
  cols : List String
  rows : List LBRow
deriving DecidableEq, Repr

/-- The flattened column names assigned in `create_tournament_leaderboard`,
plus the index column `Player` restored by `reset_index` and the final
`Rank` column. -/
def leaderboardCols : List String :=
  ["Player", "Total_Score", "Avg_Score", "Games_Played",
   "Total_Birdies", "Total_Pars", "Total_Bogeys", "Total_Double_Bogeys", "Rank"]

/-- The `.agg({...}).round(2)` aggregate of one `groupby('Player')` group. -/
def aggGroup (g : List Record) (p : String) : AggRow :=
  { player := p
    total_score := round2 ((g.map (·.netScore)).sum)
    avg_score := round2 (mean (g.map (·.netScore)))
    games_played := round2 ((g.length : ℚ))
    total_birdies := round2 ((g.map (·.birdies)).sum)
    total_pars := round2 ((g.map (·.pars)).sum)
    total_bogeys := round2 ((g.map (·.bogeys)).sum)
    total_double_bogeys := round2 ((g.map (·.doubleBogeys)).sum) }

/-- The group keys of `groupby('Player')`: the distinct players, in sorted
order (pandas `groupby` sorts its keys). -/
def groupKeys (l : List Record) : List String :=
  List.insertionSort (· ≤ ·) (l.map (·.player)).dedup

/-- `create_tournament_leaderboard`: filter to the tournament, group by
player, aggregate and round, sort ascending by (rounded) total score, then
assign `Rank = 1..k` by sorted position. -/
def create_tournament_leaderboard (df : Frame) (tournament_name : String) : Leaderboard :=
  let tournament_data := df.rows.filter fun r => r.tournament == tournament_name
  let agg := (groupKeys tournament_data).map fun p =>
    aggGroup (tournament_data.filter fun r => r.player == p) p
  let sorted := List.insertionSort (fun a b => a.total_score ≤ b.total_score) agg
  { cols := leaderboardCols
    rows := sorted.enum.map fun ia => { toAggRow := ia.2, rank := ia.1 + 1 } }

/-- One row of the comparison table built by `create_comparison_chart`. -/
structure ComparisonRow where
  player : String
  avg_net_score : ℚ
  total_birdies : ℚ
  birdie_rate : ℚ
  consistency : Option ℝ

/-- The `comparison_data` list of `create_comparison_chart`: one row per
requested player whose `calculate_player_stats` is not `None`, in input
order. -/
noncomputable def create_comparison_chart (df : Frame) : List String → List ComparisonRow
  | [] => []
  | p :: rest =>
    match calculate_player_stats df p with
    | some s =>
        { player := p
          avg_net_score := s.avg_net_score
          total_birdies := s.total_birdies
          birdie_rate := s.birdie_rate
          consistency := s.consistency } :: create_comparison_chart df rest
    | none => create_comparison_chart df rest

/-! ## Helper lemmas -/

/-- Characterisation of the loader's schema validation. -/
theorem validate_iff (df : Frame) :
    validate df = true ↔ (∀ c ∈ required_columns, c ∈ df.cols) ∧ df.rows ≠ [] := by
  simp [validate, List.isEmpty_iff, List.all_eq_true, List.contains]

/-- Any dataframe accepted by the URL loop passed validation. -/
theorem tryUrls_validate :
    ∀ {rs : List RemoteResp} {df : Frame}, tryUrls rs = some df → validate df = true := by
  intro rs
  induction rs with
  | nil => intro df h; simp [tryUrls] at h
  | cons r rest ih =>
    intro df h
    cases r with
    | failure => exact ih h
    | htmlPage => exact ih h
    | parsed cand =>
      by_cases hv : validate cand = true
      · simp [tryUrls, hv] at h
        simpa [← h] using hv
      · simp [tryUrls, hv] at h
        exact ih h

set_option maxRecDepth 100000 in
/-- The sample generator enumerates 144 combinations. -/
theorem sampleCombos_length : sampleCombos.length = 144 := by
  with_unfolding_all decide

/-- The synthetic fallback dataset always passes the loader's validation. -/
theorem validate_sample (rand : ℕ → ℕ) : validate (create_sample_data rand) = true := by
  rw [validate_iff]
  constructor
  · intro c hc
    fin_cases hc <;> simp [create_sample_data, gcoCols]
  · intro h
    have : (create_sample_data rand).rows.length = 144 := by
      simp [create_sample_data, sampleCombos_length, List.enum_length]
    rw [h] at this
    simp at this

/-- Every dataframe `load_gco_data` returns passes the loader's validation. -/
theorem validate_load (env : Env) (rand : ℕ → ℕ) :
    validate (load_gco_data env rand) = true := by
  have hrs : validate (loadRemoteOrSample env rand) = true := by
    unfold loadRemoteOrSample
    cases h : tryUrls env.remote with
    | none => exact validate_sample rand
    | some df => exact tryUrls_validate h
  unfold load_gco_data
  cases hl : env.localFile with
  | absent => exact hrs
  | unreadable => exact hrs
  | parsed df =>
    by_cases hv : validate df = true
    · simp [hv]
    · simp [hv]
      exact hrs

/-- The local-file source failed: the file was absent, unreadable, or parsed
to a dataframe that does not validate. -/
def localFails (lf : LocalFile) : Prop :=
  ∀ df, lf = LocalFile.parsed df → validate df = false

/-! ## C1 — the loader is total, non-empty, schema-complete, with sample-data
fallback -/

/-- C1: for every combination of file-system and network failures,
`load_gco_data` terminates (it is a total function) and returns a dataset
that contains the required columns `Player`, `Tournament`, `Game`,
`Net_Score` and is non-empty; when the local cache fails and every remote
URL attempt fails, the result is the synthetic sample data. -/
theorem load_gco_data_total (env : Env) (rand : ℕ → ℕ) :
    ((∀ c ∈ required_columns, c ∈ (load_gco_data env rand).cols) ∧
      (load_gco_data env rand).rows ≠ []) ∧
    (localFails env.localFile → tryUrls env.remote = none →
      load_gco_data env rand = create_sample_data rand) := by
  refine ⟨(validate_iff _).mp (validate_load env rand), ?_⟩
  intro hlocal hurls
  unfold load_gco_data
  cases hl : env.localFile with
  | absent => simp [loadRemoteOrSample, hurls]
  | unreadable => simp [loadRemoteOrSample, hurls]
  | parsed df =>
    have : validate df = false := hlocal df hl
    simp [this, loadRemoteOrSample, hurls]

/-- C1 witness: with the cache file absent and all three URL attempts
failing, the loader returns the (valid, non-empty) sample dataset. -/
theorem load_gco_data_total_witness :
    load_gco_data ⟨LocalFile.absent, [RemoteResp.failure, RemoteResp.htmlPage, RemoteResp.failure]⟩
        (fun _ => 0) = create_sample_data (fun _ => 0) ∧
    "Player" ∈ (load_gco_data ⟨LocalFile.absent,
        [RemoteResp.failure, RemoteResp.htmlPage, RemoteResp.failure]⟩ (fun _ => 0)).cols := by
  have h := load_gco_data_total
    ⟨LocalFile.absent, [RemoteResp.failure, RemoteResp.htmlPage, RemoteResp.failure]⟩ (fun _ => 0)
  refine ⟨h.2 (fun df hdf => by simp at hdf) (by with_unfolding_all decide), ?_⟩
  exact h.1.1 "Player" (by simp [required_columns])

/-! ## C7 — validation checks exactly the four required columns; the other
four count fields are not guaranteed -/

/-- A candidate cache file carrying only the four required columns: the
loader accepts it even though `Birdies`, `Pars`, `Bogeys`, `Double_Bogeys`
are absent. -/
def fourColFrame : Frame :=
  ⟨["Player", "Tournament", "Game", "Net_Score"],
   [⟨"P1", "T1", "G1", 2, 1, 10, 2, 1⟩]⟩

/-- C7 counterexample: a non-empty cached dataset with only the four
required columns is returned by `load_gco_data` as-is, so the returned
dataset does not contain the `Birdies` column (nor the other three count
columns), refuting "all five count/score fields are present as columns". -/
theorem load_missing_birdies_cex :
    load_gco_data ⟨LocalFile.parsed fourColFrame, []⟩ (fun _ => 0) = fourColFrame ∧
    "Birdies" ∉ (load_gco_data ⟨LocalFile.parsed fourColFrame, []⟩ (fun _ => 0)).cols ∧
    "Pars" ∉ (load_gco_data ⟨LocalFile.parsed fourColFrame, []⟩ (fun _ => 0)).cols ∧
    "Bogeys" ∉ (load_gco_data ⟨LocalFile.parsed fourColFrame, []⟩ (fun _ => 0)).cols ∧
    "Double_Bogeys" ∉ (load_gco_data ⟨LocalFile.parsed fourColFrame, []⟩ (fun _ => 0)).cols := by
  with_unfolding_all decide

/-- C7 (amended): every dataset `load_gco_data` returns passes `validate`,
and `validate` accepts a candidate exactly when the four required columns
`Player`, `Tournament`, `Game`, `Net_Score` are all present and the
candidate is non-empty — presence of the four shot-count columns is not
checked. -/
theorem load_validates_required (env : Env) (rand : ℕ → ℕ) (df : Frame) :
    validate (load_gco_data env rand) = true ∧
    (validate df = true ↔ (∀ c ∈ required_columns, c ∈ df.cols) ∧ df.rows ≠ []) :=
  ⟨validate_load env rand, validate_iff df⟩

/-! ## C3 — playerStats is absent exactly when no row matches -/

/-- C3: `calculate_player_stats` returns `None` if and only if no row of the
dataset has the requested player; in particular it returns `None` on a
dataset with no rows, for every player. -/
theorem player_stats_none_iff (df : Frame) (p : String) :
    (calculate_player_stats df p = none ↔ ∀ r ∈ df.rows, r.player ≠ p) ∧
    (∀ cols : List String, calculate_player_stats ⟨cols, []⟩ p = none) := by
  constructor
  · unfold calculate_player_stats
    by_cases h : (df.rows.filter fun r => r.player == p) = []
    · simp [h, List.filter_eq_nil_iff.mp h]
      intro r hr
      have := List.filter_eq_nil_iff.mp h r hr
      simpa using this
    · simp [h]
      rw [List.filter_eq_nil_iff] at h
      push_neg at h
      obtain ⟨r, hr, hp⟩ := h
      refine ⟨r, hr, by simpa using hp⟩
  · intro cols
    unfold calculate_player_stats
    simp

/-! ## C5 — total_games counts every matching row, duplicates included -/

/-- C5: whenever `calculate_player_stats` returns statistics, `total_games`
is the number of dataset rows whose player equals the requested one —
rows are counted as they stand, with no deduplication. -/
theorem player_stats_total_games (df : Frame) (p : String) (s : Stats)
    (h : calculate_player_stats df p = some s) :
    s.total_games = df.rows.countP (fun r => r.player == p) := by
  unfold calculate_player_stats at h
  by_cases hf : ((df.rows.filter fun r => r.player == p).isEmpty) = true
  · simp [hf] at h
  · simp [hf] at h
    rw [← h]
    simp [List.countP_eq_length_filter]

/-- A dataset in which the same (player, game) pair occurs twice, as in the
duplicate-handling unit test. -/
def dupDf : Frame :=
  ⟨gcoCols,
   [⟨"Player1", "提提卡卡杯", "Game1", 2, 1, 10, 2, 1⟩,
    ⟨"Player1", "提提卡卡杯", "Game1", 3, 2, 11, 1, 0⟩]⟩

/-- C5 witness: both duplicate (player, game) rows are counted. -/
theorem player_stats_total_games_witness :
    (calculate_player_stats dupDf "Player1").map Stats.total_games = some 2 := by
  have hs : (calculate_player_stats dupDf "Player1").isSome = true := by
    with_unfolding_all rfl
  obtain ⟨s, hs⟩ := Option.isSome_iff_exists.mp hs
  rw [hs]
  simp only [Option.map_some']
  have := player_stats_total_games dupDf "Player1" s hs
  rw [this]
  with_unfolding_all decide

/-! ## C6 — empty tournament gives an empty leaderboard with the full
column schema -/

/-- C6: for a tournament with no matching rows the leaderboard has no rows
(not an error — the function is total) while its column schema is the full
nine-column set. -/
theorem leaderboard_empty_schema (df : Frame) (t : String)
    (h : ∀ r ∈ df.rows, r.tournament ≠ t) :
    (create_tournament_leaderboard df t).rows = [] ∧
    (create_tournament_leaderboard df t).cols = leaderboardCols := by
  have hf : (df.rows.filter fun r => r.tournament == t) = [] := by
    rw [List.filter_eq_nil_iff]
    intro r hr
    simpa using h r hr
  unfold create_tournament_leaderboard
  rw [hf]
  simp [groupKeys]

/-- C6 witness: a dataset whose only tournament is `提提卡卡杯`, queried for a
tournament that does not occur. -/
theorem leaderboard_empty_schema_witness :
    (create_tournament_leaderboard dupDf "不存在的比赛").rows = [] ∧
    (create_tournament_leaderboard dupDf "不存在的比赛").cols = leaderboardCols := by
  refine leaderboard_empty_schema dupDf "不存在的比赛" ?_
  intro r hr
  fin_cases hr <;> with_unfolding_all decide

/-! ## C4 — concrete statistics values and the ddof = 1 consistency metric -/

/-- The five-game fixture of the unit tests: one player `TestPlayer` with
net scores `[-2, 1, 0, 3, -1]`. -/
def c4df : Frame :=
  ⟨gcoCols,
   [⟨"TestPlayer", "提提卡卡杯", "Game1", -2, 2, 10, 3, 1⟩,
    ⟨"TestPlayer", "提提卡卡杯", "Game2", 1, 1, 12, 2, 1⟩,
    ⟨"TestPlayer", "提提卡卡杯", "Game3", 0, 0, 14, 2, 0⟩,
    ⟨"TestPlayer", "提提卡卡杯", "Game4", 3, 0, 11, 4, 1⟩,
    ⟨"TestPlayer", "提提卡卡杯", "Game5", -1, 1, 13, 1, 1⟩]⟩

/-- A dataset with a single record for player `Solo` (the n = 1 case in
which the consistency metric is undefined). -/
def soloDf : Frame :=
  ⟨gcoCols, [⟨"Solo", "提提卡卡杯", "Game1", 2, 1, 10, 2, 1⟩]⟩

/-- C4: on net scores `[-2, 1, 0, 3, -1]` the player statistics give
average `0.2`, best `-2`, worst `3`, and consistency the sample standard
deviation with divisor n − 1, namely `√3.7 ≈ 1.924` (strictly between
`1.923` and `1.924`); in general the consistency field is the ddof = 1
standard deviation of the player's net scores and is undefined (`none`,
modelling pandas' `NaN`) when the player has exactly one record. -/
theorem player_stats_sample_values :
    ((calculate_player_stats c4df "TestPlayer").map Stats.avg_net_score = some (1/5) ∧
     (calculate_player_stats c4df "TestPlayer").map Stats.best_score = some (-2) ∧
     (calculate_player_stats c4df "TestPlayer").map Stats.worst_score = some 3 ∧
     (calculate_player_stats c4df "TestPlayer").map Stats.consistency =
       some (sampleStd [-2, 1, 0, 3, -1]) ∧
     sampleStd [-2, 1, 0, 3, -1] = some (Real.sqrt ((37/10 : ℚ) : ℝ)) ∧
     (1923/1000 : ℝ) < Real.sqrt ((37/10 : ℚ) : ℝ) ∧
     Real.sqrt ((37/10 : ℚ) : ℝ) < (1924/1000 : ℝ)) ∧
    (∀ (df : Frame) (p : String) (s : Stats), calculate_player_stats df p = some s →
      s.consistency = sampleStd ((df.rows.filter fun r => r.player == p).map (·.netScore))) ∧
    (∀ (df : Frame) (p : String) (s : Stats), calculate_player_stats df p = some s →
      (df.rows.filter fun r => r.player == p).length = 1 → s.consistency = none) := by
  have hgen : ∀ (df : Frame) (p : String) (s : Stats), calculate_player_stats df p = some s →
      s.consistency = sampleStd ((df.rows.filter fun r => r.player == p).map (·.netScore)) := by
    intro df p s h
    unfold calculate_player_stats at h
    by_cases hf : ((df.rows.filter fun r => r.player == p).isEmpty) = true
    · simp [hf] at h
    · simp [hf] at h
      rw [← h]
  refine ⟨⟨?_, ?_, ?_, ?_, ?_, ?_, ?_⟩, hgen, ?_⟩
  · with_unfolding_all rfl
  · with_unfolding_all rfl
  · with_unfolding_all rfl
  · with_unfolding_all rfl
  · have hv : sampleVar [-2, 1, 0, 3, -1] = 37/10 := by with_unfolding_all decide
    rw [sampleStd, if_pos (by simp), hv]
  · rw [Real.lt_sqrt (by norm_num)]
    push_cast
    norm_num
  · rw [Real.sqrt_lt' (by norm_num)]
    push_cast
    norm_num
  · intro df p s h hlen
    rw [hgen df p s h, sampleStd, if_neg]
    rw [List.length_map, hlen]
    omega

/-- C4 witness: for a player with exactly one record the consistency field
is undefined (`none`). -/
theorem player_stats_sample_values_witness :
    (calculate_player_stats soloDf "Solo").map Stats.consistency = some none := by
  have hs : (calculate_player_stats soloDf "Solo").isSome = true := by
    with_unfolding_all rfl
  obtain ⟨s, hs⟩ := Option.isSome_iff_exists.mp hs
  rw [hs]
  simp only [Option.map_some']
  have := player_stats_sample_values.2.2 soloDf "Solo" s hs (by with_unfolding_all decide)
  rw [this]

/-! ## C9 — the comparison matrix keeps requested players in order and
silently skips players with no rows -/

/-- C9: the comparison matrix has one row per requested player whose
statistics are present (players with no matching rows are skipped, not
errors), in input order, and each row carries that player's mean net score,
total birdies, birdie rate and consistency. -/
theorem comparison_matrix (df : Frame) (players : List String) :
    ((create_comparison_chart df players).map (·.player) =
      players.filter fun p => (calculate_player_stats df p).isSome) ∧
    (∀ row ∈ create_comparison_chart df players, ∃ s,
      calculate_player_stats df row.player = some s ∧
      row.avg_net_score = s.avg_net_score ∧
      row.total_birdies = s.total_birdies ∧
      row.birdie_rate = s.birdie_rate ∧
      row.consistency = s.consistency) := by
  induction players with
  | nil => simp [create_comparison_chart]
  | cons p rest ih =>
    cases h : calculate_player_stats df p with
    | none =>
      rw [create_comparison_chart, h]
      refine ⟨?_, ih.2⟩
      simp [List.filter_cons, h, ih.1]
    | some s =>
      rw [create_comparison_chart, h]
      constructor
      · simp [List.filter_cons, h, ih.1]
      · intro row hrow
        rcases List.mem_cons.mp hrow with hr | hr
        · subst hr
          exact ⟨s, h, rfl, rfl, rfl, rfl⟩
        · exact ih.2 row hr

/-- C9 witness: requesting an existing player and a player with no rows
yields exactly one row, for the existing player. -/
theorem comparison_matrix_witness :
    (create_comparison_chart c4df ["TestPlayer", "Ghost"]).map (·.player) = ["TestPlayer"] := by
  rw [(comparison_matrix c4df ["TestPlayer", "Ghost"]).1]
  with_unfolding_all decide

/-! ## C2 — leaderboard ordering and ranks -/

/-- The second components of an enumerated list are its elements. -/
theorem mem_enumFrom_snd {α : Type} {x : ℕ × α} :
    ∀ {l : List α} {n : ℕ}, x ∈ List.enumFrom n l → x.2 ∈ l := by
  intro l
  induction l with
  | nil => intro n h; simp [List.enumFrom] at h
  | cons a tl ih =>
    intro n h
    rw [List.enumFrom] at h
    rcases List.mem_cons.mp h with h | h
    · subst h; exact List.mem_cons_self _ _
    · exact List.mem_cons_of_mem _ (ih h)

/-- Enumeration preserves pairwise relations on the second components. -/
theorem pairwise_enumFrom {α : Type} {R : α → α → Prop} :
    ∀ (l : List α) (n : ℕ), List.Pairwise R l →
      List.Pairwise (fun x y : ℕ × α => R x.2 y.2) (List.enumFrom n l) := by
  intro l
  induction l with
  | nil => intro n _; simp [List.enumFrom]
  | cons a tl ih =>
    intro n h
    rw [List.enumFrom]
    rcases List.pairwise_cons.mp h with ⟨ha, htl⟩
    exact List.pairwise_cons.mpr ⟨fun y hy => ha y.2 (mem_enumFrom_snd hy), ih (n + 1) htl⟩

/-- Ranks assigned from an enumeration starting at `n` are `n+1, n+2, …`. -/
theorem enumFrom_map_rank (l : List AggRow) :
    ∀ n : ℕ, ((List.enumFrom n l).map fun ia =>
      ({ toAggRow := ia.2, rank := ia.1 + 1 } : LBRow)).map (fun r => r.rank) =
      List.range' (n + 1) l.length := by
  induction l with
  | nil => intro n; simp [List.enumFrom]
  | cons a tl ih =>
    intro n
    rw [List.enumFrom, List.length_cons, List.range'_succ]
    simp only [List.map_cons]
    rw [ih (n + 1)]

/-- Dropping the rank recovers the aggregated rows from the enumeration. -/
theorem enumFrom_map_agg (l : List AggRow) :
    ∀ n : ℕ, ((List.enumFrom n l).map fun ia =>
      ({ toAggRow := ia.2, rank := ia.1 + 1 } : LBRow)).map (fun r => r.toAggRow) = l := by
  induction l with
  | nil => intro n; simp [List.enumFrom]
  | cons a tl ih =>
    intro n
    rw [List.enumFrom]
    simp only [List.map_cons]
    rw [ih (n + 1)]

/-- C2: the leaderboard rows are sorted ascending by total net score; the
`Rank` column is `1..k` by sorted position (no gap-filling for ties); the
head row has rank 1 and a minimal total; and for adjacent rows
`rank i < rank (i+1)` holds iff `total i ≤ total (i+1)` (both always hold). -/
theorem tournament_leaderboard_ranks (df : Frame) (t : String) :
    List.Chain' (fun a b : LBRow => a.total_score ≤ b.total_score)
      (create_tournament_leaderboard df t).rows ∧
    ((create_tournament_leaderboard df t).rows.map (fun r => r.rank) =
      List.range' 1 (create_tournament_leaderboard df t).rows.length) ∧
    (∀ r₀, (create_tournament_leaderboard df t).rows.head? = some r₀ →
      r₀.rank = 1 ∧ ∀ r ∈ (create_tournament_leaderboard df t).rows,
        r₀.total_score ≤ r.total_score) ∧
    (∀ (i : ℕ) (h1 : i < (create_tournament_leaderboard df t).rows.length)
        (h2 : i + 1 < (create_tournament_leaderboard df t).rows.length),
      (((create_tournament_leaderboard df t).rows.get ⟨i, h1⟩).rank <
          ((create_tournament_leaderboard df t).rows.get ⟨i + 1, h2⟩).rank ↔
        ((create_tournament_leaderboard df t).rows.get ⟨i, h1⟩).total_score ≤
          ((create_tournament_leaderboard df t).rows.get ⟨i + 1, h2⟩).total_score)) := by
  have hT : IsTotal AggRow (fun a b => a.total_score ≤ b.total_score) :=
    ⟨fun a b => le_total _ _⟩
  have hTr : IsTrans AggRow (fun a b => a.total_score ≤ b.total_score) :=
    ⟨fun a b c hab hbc => le_trans hab hbc⟩
  set td := df.rows.filter fun r => r.tournament == t with htd
  set agg := (groupKeys td).map fun p => aggGroup (td.filter fun r => r.player == p) p with hagg
  set sorted := List.insertionSort (fun a b : AggRow => a.total_score ≤ b.total_score) agg
    with hsorted
  have hrows : (create_tournament_leaderboard df t).rows =
      sorted.enum.map fun ia => ({ toAggRow := ia.2, rank := ia.1 + 1 } : LBRow) := rfl
  have hsort : List.Sorted (fun a b : AggRow => a.total_score ≤ b.total_score) sorted :=
    List.sorted_insertionSort (fun a b : AggRow => a.total_score ≤ b.total_score) agg
  have hpw : List.Pairwise (fun a b : LBRow => a.total_score ≤ b.total_score)
      ((create_tournament_leaderboard df t).rows) := by
    rw [hrows, List.pairwise_map]
    exact pairwise_enumFrom sorted 0 hsort
  have hchain : List.Chain' (fun a b : LBRow => a.total_score ≤ b.total_score)
      ((create_tournament_leaderboard df t).rows) := hpw.chain'
  have hranks : (create_tournament_leaderboard df t).rows.map (fun r => r.rank) =
      List.range' 1 (create_tournament_leaderboard df t).rows.length := by
    rw [hrows, List.enum]
    rw [enumFrom_map_rank sorted 0]
    simp [List.enumFrom_length]
  refine ⟨hchain, hranks, ?_, ?_⟩
  · intro r₀ hh
    rcases hr : (create_tournament_leaderboard df t).rows with _ | ⟨a, rest⟩
    · rw [hr] at hh; simp at hh
    · rw [hr] at hh
      simp only [List.head?_cons, Option.some.injEq] at hh
      subst hh
      constructor
      · have := hranks
        rw [hr, List.map_cons, List.length_cons, List.range'_succ] at this
        exact (List.cons.injEq _ _ _ _).mp this |>.1
      · intro r hrr
        rw [hr] at hpw
        rcases List.mem_cons.mp hrr with h | h
        · subst h; exact le_refl _
        · exact List.rel_of_pairwise_cons hpw h
  · intro i h1 h2
    have key : ∀ (j : ℕ) (hj : j < (create_tournament_leaderboard df t).rows.length),
        ((create_tournament_leaderboard df t).rows.get ⟨j, hj⟩).rank = 1 + j := by
      intro j hj
      have e1 := congrArg (fun l => l.get? j) hranks
      simp only at e1
      have hj' : j < (List.range' 1 (create_tournament_leaderboard df t).rows.length).length := by
        simpa using hj
      rw [List.get?_map, List.get?_eq_get hj, List.get?_eq_get hj'] at e1
      simp only [Option.map_some'] at e1
      have e2 : (List.range' 1 (create_tournament_leaderboard df t).rows.length).get ⟨j, hj'⟩ =
          1 + j := by
        rw [List.get_eq_getElem]
        exact List.getElem_range'_1 _ _
      rw [e2] at e1
      exact Option.some.inj e1
    have hrank_lt : ((create_tournament_leaderboard df t).rows.get ⟨i, h1⟩).rank <
        ((create_tournament_leaderboard df t).rows.get ⟨i + 1, h2⟩).rank := by
      rw [key i h1, key (i + 1) h2]
      omega
    have htot : ((create_tournament_leaderboard df t).rows.get ⟨i, h1⟩).total_score ≤
        ((create_tournament_leaderboard df t).rows.get ⟨i + 1, h2⟩).total_score := by
      have := List.chain'_iff_get.mp hchain i (by omega)
      exact this
    exact ⟨fun _ => htot, fun _ => hrank_lt⟩

/-- A two-tournament, three-player dataset used to exercise the leaderboard
theorems on concrete input. -/
def lbDf : Frame :=
  ⟨gcoCols,
   [⟨"Player1", "提提卡卡杯", "Game1", 2, 1, 10, 2, 1⟩,
    ⟨"Player1", "提提卡卡杯", "Game2", -1, 2, 11, 1, 0⟩,
    ⟨"Player2", "提提卡卡杯", "Game1", 0, 1, 12, 1, 0⟩,
    ⟨"Player2", "提提卡卡杯", "Game2", 3, 0, 9, 3, 2⟩,
    ⟨"Player3", "提提卡卡杯", "Game1", -2, 3, 8, 1, 0⟩,
    ⟨"Player3", "提提卡卡杯", "Game2", 1, 1, 10, 2, 1⟩]⟩

set_option maxRecDepth 10000 in
/-- C2 witness: on the concrete dataset the head row of the leaderboard has
rank 1 and the minimal total score. -/
theorem tournament_leaderboard_ranks_witness :
    (create_tournament_leaderboard lbDf "提提卡卡杯").rows.head?.map (fun r => r.rank) =
      some 1 ∧
    (create_tournament_leaderboard lbDf "提提卡卡杯").rows.head?.map (fun r => r.total_score) =
      some (-1) := by
  have hh : (create_tournament_leaderboard lbDf "提提卡卡杯").rows.head? =
      some ⟨⟨"Player3", -1, -1/2, 2, 4, 18, 3, 1⟩, 1⟩ := by
    with_unfolding_all decide
  have h := (tournament_leaderboard_ranks lbDf "提提卡卡杯").2.2.1 _ hh
  constructor
  · have e : (create_tournament_leaderboard lbDf "提提卡卡杯").rows.head?.map (fun r => r.rank) =
        some ((⟨⟨"Player3", -1, -1/2, 2, 4, 18, 3, 1⟩, 1⟩ : LBRow).rank) := by
      rw [hh]
      rfl
    rw [e, h.1]
  · rw [hh]
    rfl

/-! ## C10 — every leaderboard aggregate is rounded to two decimals before
sorting and ranking -/

/-- A one-player dataset whose mean net score `1/3` is not representable in
two decimals, exposing the `.round(2)` step. -/
def c10df : Frame :=
  ⟨gcoCols,
   [⟨"P", "T", "G1", 1, 0, 10, 0, 0⟩,
    ⟨"P", "T", "G2", 0, 0, 10, 0, 0⟩,
    ⟨"P", "T", "G3", 0, 0, 10, 0, 0⟩]⟩

/-- C10: every numeric aggregate the leaderboard carries — total, average,
game count and the four shot-count sums — is an integer multiple of `1/100`
(it went through `.round(2)` before the sort and the rank assignment); on
`c10df` the exact mean `1/3` is published as `0.33`. -/
theorem leaderboard_rounds_aggregates (df : Frame) (t : String) :
    (∀ r ∈ (create_tournament_leaderboard df t).rows,
      (∃ k : ℤ, r.total_score = k / 100) ∧
      (∃ k : ℤ, r.avg_score = k / 100) ∧
      (∃ k : ℤ, r.games_played = k / 100) ∧
      (∃ k : ℤ, r.total_birdies = k / 100) ∧
      (∃ k : ℤ, r.total_pars = k / 100) ∧
      (∃ k : ℤ, r.total_bogeys = k / 100) ∧
      (∃ k : ℤ, r.total_double_bogeys = k / 100)) ∧
    ((create_tournament_leaderboard c10df "T").rows.map (fun r => r.avg_score) = [33/100]) ∧
    mean (c10df.rows.map (·.netScore)) = 1/3 ∧
    (33/100 : ℚ) ≠ 1/3 := by
  refine ⟨?_, ?_, ?_, ?_⟩
  · intro r hr
    have hr' : r ∈ (List.insertionSort
        (fun a b : AggRow => a.total_score ≤ b.total_score)
        ((groupKeys (df.rows.filter fun x => x.tournament == t)).map fun p =>
          aggGroup ((df.rows.filter fun x => x.tournament == t).filter
            fun x => x.player == p) p)).enum.map
        (fun ia => ({ toAggRow := ia.2, rank := ia.1 + 1 } : LBRow)) := hr
    obtain ⟨ia, hia, rfl⟩ := List.mem_map.mp hr'
    obtain ⟨i, a⟩ := ia
    have hmem : (i, a).2 ∈ List.insertionSort
        (fun a b : AggRow => a.total_score ≤ b.total_score)
        ((groupKeys (df.rows.filter fun x => x.tournament == t)).map fun p =>
          aggGroup ((df.rows.filter fun x => x.tournament == t).filter
            fun x => x.player == p) p) := mem_enumFrom_snd hia
    have hagg := List.mem_insertionSort
      (fun a b : AggRow => a.total_score ≤ b.total_score) |>.mp hmem
    obtain ⟨p, _, rfl⟩ := List.mem_map.mp hagg
    exact ⟨⟨_, rfl⟩, ⟨_, rfl⟩, ⟨_, rfl⟩, ⟨_, rfl⟩, ⟨_, rfl⟩, ⟨_, rfl⟩, ⟨_, rfl⟩⟩
  · with_unfolding_all decide
  · with_unfolding_all decide
  · with_unfolding_all decide

/-- C10 witness: the published average of `c10df` is a multiple of `1/100`. -/
theorem leaderboard_rounds_aggregates_witness :
    ∃ k : ℤ, (({ toAggRow := ⟨"P", 1, 33/100, 3, 0, 30, 0, 0⟩, rank := 1 } : LBRow)).avg_score =
      (k : ℚ) / 100 := by
  have hmem : ({ toAggRow := ⟨"P", 1, 33/100, 3, 0, 30, 0, 0⟩, rank := 1 } : LBRow) ∈
      (create_tournament_leaderboard c10df "T").rows := by
    with_unfolding_all decide
  exact ((leaderboard_rounds_aggregates c10df "T").1 _ hmem).2.1

/-! ## C8 — shape of the synthetic sample data -/

set_option maxRecDepth 100000 in
/-- The 144 enumerated combinations are pairwise distinct. -/
theorem sampleCombos_nodup : sampleCombos.Nodup := by
  with_unfolding_all decide

/-- Counting over the enumerated-and-mapped list reduces to counting over
the underlying list when the predicate ignores the index. -/
theorem countP_enumFrom_map {α β : Type} (f : ℕ → α → β) (pred : β → Bool) (q : α → Bool)
    (hq : ∀ i a, pred (f i a) = q a) :
    ∀ (l : List α) (n : ℕ),
      ((List.enumFrom n l).map fun ia => f ia.1 ia.2).countP pred = l.countP q := by
  intro l
  induction l with
  | nil => intro n; simp [List.enumFrom]
  | cons a tl ih =>
    intro n
    rw [List.enumFrom, List.map_cons, List.countP_cons, List.countP_cons, hq, ih (n + 1)]

/-- `np.random.randint(lo, hi)` draws lie in `[lo, hi)` whatever the stream. -/
theorem randint_bounds (rand : ℕ → ℕ) (k : ℕ) (lo hi : ℤ) (h : lo < hi) :
    lo ≤ randint rand k lo hi ∧ randint rand k lo hi < hi := by
  unfold randint
  have hpos : 0 < (hi - lo).toNat := by omega
  have hmod : rand k % (hi - lo).toNat < (hi - lo).toNat := Nat.mod_lt _ hpos
  have hcast : ((rand k % (hi - lo).toNat : ℕ) : ℤ) < hi - lo := by
    have := Int.ofNat_lt.mpr hmod
    omega
  constructor
  · have : (0 : ℤ) ≤ ((rand k % (hi - lo).toNat : ℕ) : ℤ) := Int.ofNat_nonneg _
    omega
  · omega

/-- C8: for every random stream, the synthetic sample data enumerates
exactly the fixed 12 players and the fixed 3 tournaments; it carries exactly
one record per (player, tournament, game) combination over each tournament's
game list; and every record's net score is an integer in `[-15, 20)` with
the four shot counts non-negative and bounded (`[0,5)`, `[5,15)`, `[0,8)`,
`[0,4)`). -/
theorem sample_data_shape (rand : ℕ → ℕ) :
    ((create_sample_data rand).rows.map (fun r => (r.player, r.tournament, r.game)) =
      sampleCombos) ∧
    (∀ p, (∃ r ∈ (create_sample_data rand).rows, r.player = p) ↔ p ∈ samplePlayers) ∧
    (∀ t, (∃ r ∈ (create_sample_data rand).rows, r.tournament = t) ↔
      ∃ e ∈ sampleTournaments, t = e.1) ∧
    (∀ p t g, (p, t, g) ∈ sampleCombos →
      (create_sample_data rand).rows.countP
        (fun r => r.player == p && (r.tournament == t && r.game == g)) = 1) ∧
    (∀ r ∈ (create_sample_data rand).rows,
      (∃ k : ℤ, r.netScore = (k : ℚ) ∧ -15 ≤ k ∧ k < 20) ∧
      (∃ k : ℤ, r.birdies = (k : ℚ) ∧ 0 ≤ k ∧ k < 5) ∧
      (∃ k : ℤ, r.pars = (k : ℚ) ∧ 5 ≤ k ∧ k < 15) ∧
      (∃ k : ℤ, r.bogeys = (k : ℚ) ∧ 0 ≤ k ∧ k < 8) ∧
      (∃ k : ℤ, r.doubleBogeys = (k : ℚ) ∧ 0 ≤ k ∧ k < 4)) := by
  have hkey : (create_sample_data rand).rows.map (fun r => (r.player, r.tournament, r.game)) =
      sampleCombos := by
    show (sampleCombos.enum.map fun ic =>
        sampleRecord rand ic.1 ic.2.1 ic.2.2.1 ic.2.2.2).map
      (fun r => (r.player, r.tournament, r.game)) = sampleCombos
    rw [List.map_map]
    exact List.enum_map_snd sampleCombos
  refine ⟨hkey, ?_, ?_, ?_, ?_⟩
  · intro p
    constructor
    · rintro ⟨r, hr, rfl⟩
      have : (r.player, r.tournament, r.game) ∈ sampleCombos := by
        rw [← hkey]; exact List.mem_map_of_mem _ hr
      obtain ⟨p', hp', hin⟩ := List.mem_flatMap.mp this
      obtain ⟨e, _, hg⟩ := List.mem_flatMap.mp hin
      obtain ⟨g, _, hEq⟩ := List.mem_map.mp hg
      have : r.player = p' := (Prod.mk.injEq _ _ _ _).mp hEq.symm |>.1
      rw [this]; exact hp'
    · intro hp
      have hc : (p, "提提卡卡杯", "Game 1") ∈ sampleCombos := by
        refine List.mem_flatMap.mpr ⟨p, hp, ?_⟩
        refine List.mem_flatMap.mpr ⟨("提提卡卡杯", "01/04 - 31/05",
          ["Game 1", "Game 2", "Game 3", "Game 4"]), by simp [sampleTournaments], ?_⟩
        simp
      rw [← hkey] at hc
      obtain ⟨r, hr, hEq⟩ := List.mem_map.mp hc
      exact ⟨r, hr, ((Prod.mk.injEq _ _ _ _).mp hEq).1⟩
  · intro t
    constructor
    · rintro ⟨r, hr, rfl⟩
      have : (r.player, r.tournament, r.game) ∈ sampleCombos := by
        rw [← hkey]; exact List.mem_map_of_mem _ hr
      obtain ⟨p', _, hin⟩ := List.mem_flatMap.mp this
      obtain ⟨e, he, hg⟩ := List.mem_flatMap.mp hin
      obtain ⟨g, _, hEq⟩ := List.mem_map.mp hg
      refine ⟨e, he, ?_⟩
      have := (Prod.mk.injEq _ _ _ _).mp hEq.symm |>.2
      exact ((Prod.mk.injEq _ _ _ _).mp this).1
    · rintro ⟨e, he, rfl⟩
      have hne : e.2.2 ≠ [] := by
        fin_cases he <;> simp
      obtain ⟨g, hg⟩ := List.exists_mem_of_ne_nil _ hne
      have hc : ("刘北南", e.1, g) ∈ sampleCombos := by
        refine List.mem_flatMap.mpr ⟨"刘北南", by simp [samplePlayers], ?_⟩
        exact List.mem_flatMap.mpr ⟨e, he, List.mem_map_of_mem _ hg⟩
      rw [← hkey] at hc
      obtain ⟨r, hr, hEq⟩ := List.mem_map.mp hc
      refine ⟨r, hr, ?_⟩
      have := ((Prod.mk.injEq _ _ _ _).mp hEq).2
      exact ((Prod.mk.injEq _ _ _ _).mp this).1
  · intro p t g hmem
    have hcount : ((List.enumFrom 0 sampleCombos).map fun ia =>
        (fun i (c : String × String × String) =>
          sampleRecord rand i c.1 c.2.1 c.2.2) ia.1 ia.2).countP
        (fun r => r.player == p && (r.tournament == t && r.game == g)) =
        sampleCombos.countP
          (fun c => c.1 == p && (c.2.1 == t && c.2.2 == g)) :=
      countP_enumFrom_map
        (fun i (c : String × String × String) => sampleRecord rand i c.1 c.2.1 c.2.2)
        (fun r => r.player == p && (r.tournament == t && r.game == g))
        (fun c => c.1 == p && (c.2.1 == t && c.2.2 == g))
        (fun i a => rfl) sampleCombos 0
    have hone : sampleCombos.countP (fun c => c.1 == p && (c.2.1 == t && c.2.2 == g)) = 1 := by
      have hcc : sampleCombos.countP (fun c => c.1 == p && (c.2.1 == t && c.2.2 == g)) =
          @List.count _ instBEqOfDecidableEq (p, t, g) sampleCombos := by
        unfold List.count
        apply List.countP_congr
        rintro ⟨a1, a2, a3⟩ _
        simp [instBEqOfDecidableEq, Prod.mk.injEq]
      rw [hcc]
      exact List.count_eq_one_of_mem sampleCombos_nodup hmem
    exact hcount.trans hone
  · intro r hr
    have hr' : r ∈ sampleCombos.enum.map fun ic =>
        sampleRecord rand ic.1 ic.2.1 ic.2.2.1 ic.2.2.2 := hr
    obtain ⟨ic, _, rfl⟩ := List.mem_map.mp hr'
    refine ⟨⟨randint rand (5 * ic.1) (-15) 20, rfl, randint_bounds rand _ _ _ (by omega)⟩,
      ⟨randint rand (5 * ic.1 + 1) 0 5, rfl, randint_bounds rand _ _ _ (by omega)⟩,
      ⟨randint rand (5 * ic.1 + 2) 5 15, rfl, randint_bounds rand _ _ _ (by omega)⟩,
      ⟨randint rand (5 * ic.1 + 3) 0 8, rfl, randint_bounds rand _ _ _ (by omega)⟩,
      ⟨randint rand (5 * ic.1 + 4) 0 4, rfl, randint_bounds rand _ _ _ (by omega)⟩⟩

set_option maxRecDepth 100000 in
/-- C8 witness: with the all-zeros stream, the sample data carries exactly
one record for `(刘北南, 提提卡卡杯, Game 1)`. -/
theorem sample_data_shape_witness :
    (create_sample_data (fun _ => 0)).rows.countP
      (fun r => r.player == "刘北南" && (r.tournament == "提提卡卡杯" && r.game == "Game 1")) = 1 := by
  refine (sample_data_shape (fun _ => 0)).2.2.2.1 "刘北南" "提提卡卡杯" "Game 1" ?_
  with_unfolding_all decide

end GCO
